import Mathlib

/-!
# KARMA versioned software-usage knowledge graph: formal model

A shallow embedding of the core data model and algorithms of the KARMA
pipeline (`karma_pipeline.py`, `store_knowledge_graph.py`): the
entity/triple/procedure data model, version-range matching, triple
deduplication and integration, change-impact processing, change-to-triple
synthesis, text segmentation, and the export document.

Python strings are modelled as Lean `String` (or `List Char` where the
algorithm walks the characters); Python's lexicographic string comparison
is modelled by `lexLe`; Python dicts keyed by id are modelled as ordered
association lists with overwrite-on-assignment semantics; Python floats
that only ever hold decimal literals (confidence scores) are modelled as
`Rat`.
-/

namespace Karma

/-- Entity types (`EntityType` in `karma_pipeline.py`). -/
inductive EntityType where
  | uiElement
  | feature
  | procedure
  | step
  | outcome
  | concept
  | shortcut
  | setting
  | fileFormat
  | version
  | constraint
  | software
  | unknown
deriving DecidableEq, Repr

/-- The serialization value of an entity type (the Python str-enum value). -/
def EntityType.value : EntityType → String
  | .uiElement => "UIElement"
  | .feature => "Feature"
  | .procedure => "Procedure"
  | .step => "Step"
  | .outcome => "Outcome"
  | .concept => "Concept"
  | .shortcut => "Shortcut"
  | .setting => "Setting"
  | .fileFormat => "FileFormat"
  | .version => "Version"
  | .constraint => "Constraint"
  | .software => "Software"
  | .unknown => "Unknown"

/-- Relation types (`RelationType` in `karma_pipeline.py`). -/
inductive RelationType where
  | locatedIn
  | accessedVia
  | contains
  | activates
  | requires
  | enables
  | enhances
  | conflictsWith
  | alternativeTo
  | partOf
  | nextStep
  | achieves
  | prerequisiteFor
  | shortcutFor
  | configuredBy
  | defaultValue
  | supports
  | exportsTo
  | importsFrom
  | introducedIn
  | removedIn
  | changedIn
  | replacedBy
  | renamedTo
  | movedTo
  | relatedTo
deriving DecidableEq, Repr

/-- The serialization value of a relation type (the Python str-enum value). -/
def RelationType.value : RelationType → String
  | .locatedIn => "located_in"
  | .accessedVia => "accessed_via"
  | .contains => "contains"
  | .activates => "activates"
  | .requires => "requires"
  | .enables => "enables"
  | .enhances => "enhances"
  | .conflictsWith => "conflicts_with"
  | .alternativeTo => "alternative_to"
  | .partOf => "part_of"
  | .nextStep => "next_step"
  | .achieves => "achieves"
  | .prerequisiteFor => "prerequisite_for"
  | .shortcutFor => "shortcut_for"
  | .configuredBy => "configured_by"
  | .defaultValue => "default_value"
  | .supports => "supports"
  | .exportsTo => "exports_to"
  | .importsFrom => "imports_from"
  | .introducedIn => "introduced_in"
  | .removedIn => "removed_in"
  | .changedIn => "changed_in"
  | .replacedBy => "replaced_by"
  | .renamedTo => "renamed_to"
  | .movedTo => "moved_to"
  | .relatedTo => "related_to"

/-- Triple lifecycle status (`TripleStatus` in `karma_pipeline.py`). -/
inductive TripleStatus where
  | active
  | deprecated
  | needsReview
  | pending
deriving DecidableEq, Repr

/-- The serialization value of a triple status (the Python str-enum value). -/
def TripleStatus.value : TripleStatus → String
  | .active => "active"
  | .deprecated => "deprecated"
  | .needsReview => "needs_review"
  | .pending => "pending"

/-- An entity of the knowledge graph (`SoftwareEntity` dataclass). -/
structure SoftwareEntity where
  entity_id : String
  name : String
  entity_type : EntityType := .unknown
  description : String := ""
  parent_path : String := ""
  software : String := ""
  version_introduced : String := ""
  version_deprecated : String := ""
  aliases : List String := []
deriving DecidableEq, Repr

/-- A versioned knowledge triple (`UsageKnowledgeTriple` dataclass). -/
structure UsageKnowledgeTriple where
  head : String
  relation : String
  tail : String
  head_type : EntityType := .unknown
  tail_type : EntityType := .unknown
  introduced_version : String := ""
  deprecated_version : String := ""
  valid_version_range : String := ""
  confidence : Rat := 0
  source_document : String := ""
  source_date : String := ""
  step_order : Nat := 0
  status : TripleStatus := .active
  software : String := ""
deriving DecidableEq, Repr

/-- A multi-step procedure (`Procedure` dataclass). -/
structure Procedure where
  procedure_id : String
  name : String
  description : String := ""
  steps : List String := []
  prerequisites : List String := []
  outcome : String := ""
  software : String := ""
  version_range : String := ""
deriving DecidableEq, Repr

/-- A change detected from release notes (`ChangeRecord` dataclass). -/
structure ChangeRecord where
  change_type : String
  entity_name : String
  entity_type : EntityType := .unknown
  old_value : String := ""
  new_value : String := ""
  version : String := ""
  description : String := ""
deriving DecidableEq, Repr

/-- One result of the impact analysis consumed by `process_update_document`:
a (possibly out-of-range) index into the triple store and an impact label. -/
structure ImpactResult where
  triple_index : Int
  impact : String
deriving DecidableEq, Repr

/-- The knowledge-graph aggregate (`self.knowledge_graph` dict in `KARMA`):
entities and procedures are insertion-ordered maps keyed by id, triples an
ordered list, plus the primary software name and the known version labels. -/
structure KnowledgeGraph where
  entities : List (String × SoftwareEntity) := []
  triples : List UsageKnowledgeTriple := []
  procedures : List (String × Procedure) := []
  software : String := ""
  versions : List String := []
deriving DecidableEq, Repr

/-! ## Character-list helpers for the string algorithms -/

/-- Python's lexicographic string comparison `a <= b`, on character lists. -/
def lexLe : List Char → List Char → Bool
  | [], _ => true
  | _ :: _, [] => false
  | a :: as, b :: bs => if a = b then lexLe as bs else decide (a < b)

/-- Python's substring test `c in s` for a single-character needle. -/
def hasChar (c : Char) : List Char → Bool
  | [] => false
  | a :: rest => a = c || hasChar c rest

/-- Python's `s.replace(c, "")`: remove every occurrence of the character. -/
def removeChar (c : Char) (s : List Char) : List Char :=
  s.filter (fun a => a ≠ c)

/-- Helper for `splitDash`: first part before a `'-'`, and remaining parts. -/
def splitDashAux : List Char → List Char × List (List Char)
  | [] => ([], [])
  | c :: rest =>
    if c = '-' then ([], (splitDashAux rest).1 :: (splitDashAux rest).2)
    else (c :: (splitDashAux rest).1, (splitDashAux rest).2)

/-- Python's `s.split("-")`. -/
def splitDash (s : List Char) : List (List Char) :=
  (splitDashAux s).1 :: (splitDashAux s).2

/-- Helper for `splitParas`: first paragraph before a `"\n\n"`, and the
remaining paragraphs. -/
def splitParaAux : List Char → List Char × List (List Char)
  | [] => ([], [])
  | [c] => ([c], [])
  | c1 :: c2 :: rest =>
    if c1 = '\n' ∧ c2 = '\n' then
      ([], (splitParaAux rest).1 :: (splitParaAux rest).2)
    else
      (c1 :: (splitParaAux (c2 :: rest)).1, (splitParaAux (c2 :: rest)).2)

/-- Python's `text.split("\n\n")`. -/
def splitParas (s : List Char) : List (List Char) :=
  (splitParaAux s).1 :: (splitParaAux s).2

/-- Whether the text contains a blank-line paragraph break `"\n\n"`. -/
def hasNL2 : List Char → Bool
  | [] => false
  | [_] => false
  | c1 :: c2 :: rest => (c1 = '\n' && c2 = '\n') || hasNL2 (c2 :: rest)

/-- The ASCII whitespace characters removed by Python's `str.strip()`. -/
def pyIsSpace (c : Char) : Bool :=
  c = ' ' || c = '\t' || c = '\n' || c = '\r' || c = '\x0b' || c = '\x0c'

/-- Trailing-whitespace removal (the right half of Python's `str.strip()`). -/
def trimEnd (s : List Char) : List Char :=
  (s.reverse.dropWhile pyIsSpace).reverse

/-- Python's `str.strip()`. -/
def pyStrip (s : List Char) : List Char :=
  (trimEnd s).dropWhile pyIsSpace

/-! ## Version-range matching (`KARMA.get_knowledge_for_version`) -/

/-- The version-range check applied to each ACTIVE triple by
`get_knowledge_for_version`: an empty or `"unknown"` range always matches;
a range containing `'+'` matches iff the query version is
lexicographically at least the range with its `'+'` characters removed;
otherwise a range containing `'-'` matches iff it splits on `'-'` into
exactly two parts enclosing the query version; anything else never
matches. -/
def versionMatch (range : String) (queryVersion : String) : Bool :=
  if range = "" || range = "unknown" then true
  else if hasChar '+' range.data then
    lexLe (removeChar '+' range.data) queryVersion.data
  else if hasChar '-' range.data then
    match splitDash range.data with
    | [p1, p2] => lexLe p1 queryVersion.data && lexLe queryVersion.data p2
    | _ => false
  else false

/-- `KARMA.get_knowledge_for_version`: all ACTIVE triples whose version
range matches the query version. -/
def getKnowledgeForVersion (kg : KnowledgeGraph) (queryVersion : String) :
    List UsageKnowledgeTriple :=
  kg.triples.filter fun t =>
    decide (t.status = TripleStatus.active) &&
      versionMatch t.valid_version_range queryVersion

/-- `KARMA.get_outdated_knowledge`: all DEPRECATED or NEEDS_REVIEW triples. -/
def getOutdatedKnowledge (kg : KnowledgeGraph) : List UsageKnowledgeTriple :=
  kg.triples.filter fun t =>
    decide (t.status = TripleStatus.deprecated) ||
      decide (t.status = TripleStatus.needsReview)

/-! ## Text segmentation (`KARMA._segment_text`) -/

/-- The blank-line separator appended after each packed paragraph. -/
def nl2 : List Char := ['\n', '\n']

/-- The paragraph-packing loop of `_segment_text`: state is the emitted
segments and the current segment under construction. -/
def segmentLoop (maxLength : Nat) :
    List (List Char) → List (List Char) → List Char →
      List (List Char) × List Char
  | [], segs, cur => (segs, cur)
  | para :: rest, segs, cur =>
    if cur.length + para.length < maxLength then
      segmentLoop maxLength rest segs (cur ++ para ++ nl2)
    else
      segmentLoop maxLength rest
        (if pyStrip cur = [] then segs else segs ++ [pyStrip cur])
        (para ++ nl2)

/-- `KARMA._segment_text`: split the text on `"\n\n"`, greedily pack
paragraphs into segments below `maxLength`, strip each emitted segment,
and fall back to the text truncated to `maxLength` when no non-empty
segment was produced. -/
def segmentText (text : List Char) (maxLength : Nat) : List (List Char) :=
  let state := segmentLoop maxLength (splitParas text) [] []
  let segs :=
    if pyStrip state.2 = [] then state.1 else state.1 ++ [pyStrip state.2]
  if segs = [] then [text.take maxLength] else segs

/-! ## Triple integration (`KnowledgeIntegrationAgent.integrate_triples`) -/

/-- Python's `s.lower()` (ASCII case folding, character by character). -/
def lowerString (s : String) : String :=
  ⟨s.data.map Char.toLower⟩

/-- The deduplication identity key: lowercased head and tail around the
relation, joined by `'|'`. The relation is used verbatim. -/
def tripleKey (t : UsageKnowledgeTriple) : String :=
  lowerString t.head ++ "|" ++ t.relation ++ "|" ++ lowerString t.tail

/-- The deduplication loop of `integrate_triples`: accept a new triple iff
its key is not in the seen set, and add accepted keys to the set. -/
def integrateLoop :
    List UsageKnowledgeTriple → List String → List UsageKnowledgeTriple
  | [], _ => []
  | t :: rest, seen =>
    if tripleKey t ∈ seen then integrateLoop rest seen
    else t :: integrateLoop rest (tripleKey t :: seen)

/-- `KnowledgeIntegrationAgent.integrate_triples`: returns the triples to
add (deduplicated against the existing triples and within the batch) and
the triples to flag (always empty). -/
def integrate_triples
    (newTriples existingTriples : List UsageKnowledgeTriple) :
    List UsageKnowledgeTriple × List UsageKnowledgeTriple :=
  if newTriples = [] then ([], [])
  else (integrateLoop newTriples (existingTriples.map tripleKey), [])

/-- Modelled from the claim's words, for comparison with the source: an
identity key that is case-insensitive in all three components (relation
lowercased as well). -/
def claimTripleKeyAllLower (t : UsageKnowledgeTriple) : String :=
  lowerString t.head ++ "|" ++ lowerString t.relation ++ "|" ++ lowerString t.tail

/-- Modelled from the claim's words, for comparison with the source: the
integration loop under the all-components-lowercased identity key. -/
def claimIntegrateLoopAllLower :
    List UsageKnowledgeTriple → List String → List UsageKnowledgeTriple
  | [], _ => []
  | t :: rest, seen =>
    if claimTripleKeyAllLower t ∈ seen then claimIntegrateLoopAllLower rest seen
    else t :: claimIntegrateLoopAllLower rest (claimTripleKeyAllLower t :: seen)

/-! ## Entity ids and registration -/

/-- Python's `name.lower().replace(' ', '_')`, the name part of every
derived entity id. -/
def slug (name : String) : String :=
  ⟨(lowerString name).data.map fun c => if c = ' ' then '_' else c⟩

/-- Entity id derived by `UIElementExtractionAgent.extract_ui_elements`:
the fixed prefix `"ui_"` followed by the slug of the element name. -/
def uiEntityId (name : String) : String :=
  "ui_" ++ slug name

/-- Entity id derived by `FeatureExtractionAgent.extract_features` and by
the change-derived entity creation in `process_update_document`: the
lowercased entity-type value followed by the slug of the name. -/
def changeEntityId (ty : EntityType) (name : String) : String :=
  lowerString ty.value ++ "_" ++ slug name

/-- Registration of an entity into the graph's entity map, modelling the
Python dict assignment `knowledge_graph["entities"][entity.entity_id] =
entity`: an existing binding for the id is replaced, otherwise the new
binding is appended. -/
def registerEntity (m : List (String × SoftwareEntity))
    (e : SoftwareEntity) : List (String × SoftwareEntity) :=
  if m.any (fun p => p.1 = e.entity_id) then
    m.map fun p => if p.1 = e.entity_id then (p.1, e) else p
  else m ++ [(e.entity_id, e)]

/-- Lookup of an entity by id in the graph's entity map. -/
def lookupEntity (m : List (String × SoftwareEntity)) (eid : String) :
    Option SoftwareEntity :=
  (m.find? fun p => p.1 = eid).map (·.2)

/-- Registration of a procedure, modelling the Python dict assignment
`knowledge_graph["procedures"][proc.procedure_id] = proc`. -/
def registerProcedure (m : List (String × Procedure)) (p : Procedure) :
    List (String × Procedure) :=
  if m.any (fun q => q.1 = p.procedure_id) then
    m.map fun q => if q.1 = p.procedure_id then (q.1, p) else q
  else m ++ [(p.procedure_id, p)]

/-- The per-run entity deduplication in `process_document`: first entity
with a given lowercased name wins. -/
def dedupEntitiesByName : List SoftwareEntity → List String → List SoftwareEntity
  | [], _ => []
  | e :: rest, seen =>
    if lowerString e.name ∈ seen then dedupEntitiesByName rest seen
    else e :: dedupEntitiesByName rest (lowerString e.name :: seen)

/-! ## Change-to-triple synthesis (`KARMA.process_update_document`) -/

/-- Python's `s or t` on strings: the first operand unless it is empty. -/
def strOrElse (s t : String) : String :=
  if s = "" then t else s

/-- The triples synthesized from one change record in
`process_update_document`, given the effective update version and the
graph's primary software name. -/
def synthesizeChangeTriples (change : ChangeRecord) (version software : String) :
    List UsageKnowledgeTriple :=
  if change.change_type = "added" then
    [{ head := change.entity_name
       relation := RelationType.introducedIn.value
       tail := version
       head_type := change.entity_type
       tail_type := EntityType.version
       introduced_version := version
       valid_version_range := version ++ "+"
       confidence := 0.95
       software := software }]
  else if change.change_type = "removed" then
    { head := change.entity_name
      relation := RelationType.removedIn.value
      tail := version
      head_type := change.entity_type
      tail_type := EntityType.version
      confidence := 0.95
      software := software } ::
    (if change.new_value ≠ "" then
      [{ head := change.entity_name
         relation := RelationType.replacedBy.value
         tail := change.new_value
         head_type := change.entity_type
         tail_type := change.entity_type
         confidence := 0.90
         software := software }]
     else [])
  else if change.change_type = "moved" then
    [{ head := change.entity_name
       relation := RelationType.movedTo.value
       tail := change.new_value
       head_type := change.entity_type
       tail_type := EntityType.uiElement
       introduced_version := version
       confidence := 0.90
       software := software },
     { head := change.entity_name
       relation := RelationType.locatedIn.value
       tail := change.new_value
       head_type := change.entity_type
       tail_type := EntityType.uiElement
       introduced_version := version
       valid_version_range := version ++ "+"
       confidence := 0.90
       software := software }]
  else if change.change_type = "renamed" then
    [{ head := strOrElse change.old_value change.entity_name
       relation := RelationType.renamedTo.value
       tail := change.new_value
       head_type := change.entity_type
       tail_type := change.entity_type
       introduced_version := version
       confidence := 0.95
       software := software }]
  else []

/-- The entity created from one change record in
`process_update_document`: only an `"added"` change creates an entity. -/
def changeNewEntity (change : ChangeRecord) (version software : String) :
    Option SoftwareEntity :=
  if change.change_type = "added" then
    some { entity_id := changeEntityId change.entity_type change.entity_name
           name := change.entity_name
           entity_type := change.entity_type
           description := change.description
           version_introduced := version
           software := software }
  else none

/-! ## Procedure-derived triples (`KARMA.process_document`, stage 3) -/

/-- The per-step loop of the deterministic procedure-triple derivation:
for each step a PART_OF triple with `step_order = i + 1`, and from the
second step on a NEXT_STEP triple from the previous step. -/
def procStepTriples (procName software : String) :
    List String → Option String → Nat → List UsageKnowledgeTriple
  | [], _, _ => []
  | s :: rest, prev, i =>
    ({ head := s
       relation := RelationType.partOf.value
       tail := procName
       head_type := EntityType.step
       tail_type := EntityType.procedure
       step_order := i + 1
       confidence := 0.95
       software := software } ::
     (match prev with
      | none => []
      | some p =>
        [{ head := p
           relation := RelationType.nextStep.value
           tail := s
           head_type := EntityType.step
           tail_type := EntityType.step
           confidence := 0.95
           software := software }])) ++
    procStepTriples procName software rest (some s) (i + 1)

/-- The deterministic procedure-triple derivation of `process_document`:
an ACHIEVES triple when the outcome is non-empty, then the step triples. -/
def deriveProcedureTriples (proc : Procedure) (software : String) :
    List UsageKnowledgeTriple :=
  (if proc.outcome ≠ "" then
    [{ head := proc.name
       relation := RelationType.achieves.value
       tail := proc.outcome
       head_type := EntityType.procedure
       tail_type := EntityType.outcome
       confidence := 0.9
       software := software }]
   else []) ++
  procStepTriples proc.name software proc.steps none 0

/-! ## Impact application (`KARMA.process_update_document`) -/

/-- Application of one impact-analysis result to the triple store and the
deprecated-triples report: out-of-range indices leave both unchanged; an
in-range `"deprecated"` result deprecates the triple, stamps its
`deprecated_version`, and appends it to the report; an in-range
`"needs_update"` result flags the triple for review. -/
def applyImpact (version : String)
    (st : List UsageKnowledgeTriple × List UsageKnowledgeTriple)
    (imp : ImpactResult) :
    List UsageKnowledgeTriple × List UsageKnowledgeTriple :=
  if imp.triple_index < 0 then st
  else
    match st.1.get? imp.triple_index.toNat with
    | none => st
    | some t =>
      if imp.impact = "deprecated" then
        (st.1.set imp.triple_index.toNat
           { t with status := .deprecated, deprecated_version := version },
         st.2 ++ [{ t with status := .deprecated, deprecated_version := version }])
      else if imp.impact = "needs_update" then
        (st.1.set imp.triple_index.toNat { t with status := .needsReview }, st.2)
      else st

/-- The impact loop of `process_update_document`, over all results. -/
def applyImpacts (ts : List UsageKnowledgeTriple)
    (impacts : List ImpactResult) (version : String) :
    List UsageKnowledgeTriple × List UsageKnowledgeTriple :=
  impacts.foldl (applyImpact version) (ts, [])

/-! ## The pipeline operations over the knowledge-graph aggregate -/

/-- Python's set-add on the known-version labels (`versions.add(version)`
guarded by `if version:`). -/
def addVersion (vs : List String) (v : String) : List String :=
  if v = "" then vs else if v ∈ vs then vs else vs ++ [v]

/-- The defined API surface over the knowledge graph: document ingestion
(`process_document`, with the extraction-service outputs as parameters),
update processing (`process_update_document`), the two queries, and
export. Queries and export do not mutate the graph. -/
inductive PipelineOp where
  | ingest (ents : List SoftwareEntity) (procs : List Procedure)
      (newTriples : List UsageKnowledgeTriple) (software version : String)
  | update (impacts : List ImpactResult) (changes : List ChangeRecord)
      (version : String)
  | queryActive (version : String)
  | queryOutdated
  | exportGraph

/-- State transition of one pipeline operation on the knowledge graph. -/
def applyOp (kg : KnowledgeGraph) : PipelineOp → KnowledgeGraph
  | .ingest ents procs newTriples software version =>
    let kg1 := { kg with software := software,
                         versions := addVersion kg.versions version }
    { kg1 with
      entities := (dedupEntitiesByName ents []).foldl registerEntity kg1.entities
      procedures := procs.foldl registerProcedure kg1.procedures
      triples := kg1.triples ++ (integrate_triples newTriples kg1.triples).1 }
  | .update impacts changes version =>
    let ts1 := (applyImpacts kg.triples impacts version).1
    { kg with
      versions := addVersion kg.versions version
      entities := (changes.filterMap
        (fun c => changeNewEntity c version kg.software)).foldl
          registerEntity kg.entities
      triples := ts1 ++
        (changes.map (fun c => synthesizeChangeTriples c version kg.software)).flatten }
  | .queryActive _ => kg
  | .queryOutdated => kg
  | .exportGraph => kg

/-! ## Export document (`KARMA.export_knowledge_graph`,
`KnowledgeGraphStorage.load_from_json`) -/

/-- The summary statistics block of the export document. -/
structure KGStatistics where
  total_entities : Nat
  total_procedures : Nat
  total_triples : Nat
  active_triples : Nat
  deprecated_triples : Nat
deriving DecidableEq, Repr

/-- The statistics computed by `export_knowledge_graph`. -/
def computeStatistics (kg : KnowledgeGraph) : KGStatistics :=
  { total_entities := kg.entities.length
    total_procedures := kg.procedures.length
    total_triples := kg.triples.length
    active_triples :=
      (kg.triples.filter fun t => decide (t.status = TripleStatus.active)).length
    deprecated_triples :=
      (kg.triples.filter fun t => decide (t.status = TripleStatus.deprecated)).length }

/-- A JSON value, as produced by `json.dump` and read back by `json.load`. -/
inductive JsonVal where
  | str (s : String)
  | num (n : Int)
  | rat (q : Rat)
  | arr (elems : List JsonVal)
  | obj (fields : List (String × JsonVal))

/-- JSON form of an entity (`dataclasses.asdict`, enum to its value). -/
def entityJson (e : SoftwareEntity) : JsonVal :=
  .obj [("entity_id", .str e.entity_id),
        ("name", .str e.name),
        ("entity_type", .str e.entity_type.value),
        ("description", .str e.description),
        ("parent_path", .str e.parent_path),
        ("software", .str e.software),
        ("version_introduced", .str e.version_introduced),
        ("version_deprecated", .str e.version_deprecated),
        ("aliases", .arr (e.aliases.map .str))]

/-- JSON form of a procedure (`dataclasses.asdict`). -/
def procedureJson (p : Procedure) : JsonVal :=
  .obj [("procedure_id", .str p.procedure_id),
        ("name", .str p.name),
        ("description", .str p.description),
        ("steps", .arr (p.steps.map .str)),
        ("prerequisites", .arr (p.prerequisites.map .str)),
        ("outcome", .str p.outcome),
        ("software", .str p.software),
        ("version_range", .str p.version_range)]

/-- JSON form of a triple (`UsageKnowledgeTriple.to_dict`). -/
def tripleJson (t : UsageKnowledgeTriple) : JsonVal :=
  .obj [("head", .str t.head),
        ("relation", .str t.relation),
        ("tail", .str t.tail),
        ("head_type", .str t.head_type.value),
        ("tail_type", .str t.tail_type.value),
        ("introduced_version", .str t.introduced_version),
        ("deprecated_version", .str t.deprecated_version),
        ("valid_version_range", .str t.valid_version_range),
        ("confidence", .rat t.confidence),
        ("source_document", .str t.source_document),
        ("source_date", .str t.source_date),
        ("step_order", .num t.step_order),
        ("status", .str t.status.value),
        ("software", .str t.software)]

/-- JSON form of the statistics block. -/
def statisticsJson (s : KGStatistics) : JsonVal :=
  .obj [("total_entities", .num s.total_entities),
        ("total_procedures", .num s.total_procedures),
        ("total_triples", .num s.total_triples),
        ("active_triples", .num s.active_triples),
        ("deprecated_triples", .num s.deprecated_triples)]

/-- `KARMA.export_knowledge_graph`: the exported JSON document. -/
def exportKnowledgeGraph (kg : KnowledgeGraph) : JsonVal :=
  .obj [("software", .str kg.software),
        ("versions", .arr (kg.versions.map .str)),
        ("entities", .arr ((kg.entities.map (·.2)).map entityJson)),
        ("procedures", .arr ((kg.procedures.map (·.2)).map procedureJson)),
        ("triples", .arr (kg.triples.map tripleJson)),
        ("statistics", statisticsJson (computeStatistics kg))]

/-- `KnowledgeGraphStorage.load_from_json` after `json.dump`: `json.load`
parses the serialized text back into the same JSON document. -/
def load_from_json (doc : JsonVal) : JsonVal := doc

/-- Field access `d.get(key)` on a loaded JSON document. -/
def getField (j : JsonVal) (key : String) : Option JsonVal :=
  match j with
  | .obj fields => fields.lookup key
  | _ => none

/-- The element count of an array-valued field of a loaded document. -/
def fieldCount (j : JsonVal) (key : String) : Option Nat :=
  match getField j key with
  | some (.arr elems) => some elems.length
  | _ => none

/-- A natural-number field of a loaded document. -/
def fieldNum (j : JsonVal) (key : String) : Option Nat :=
  match getField j key with
  | some (.num n) => some n.toNat
  | _ => none

/-- The statistics block read back from a loaded document. -/
def importedStatistics (j : JsonVal) : Option KGStatistics :=
  match getField j "statistics" with
  | some stats =>
    match fieldNum stats "total_entities", fieldNum stats "total_procedures",
        fieldNum stats "total_triples", fieldNum stats "active_triples",
        fieldNum stats "deprecated_triples" with
    | some a, some b, some c, some d, some e =>
      some { total_entities := a, total_procedures := b, total_triples := c,
             active_triples := d, deprecated_triples := e }
    | _, _, _, _, _ => none
  | none => none

/-- Fixture: the triple `(A, requires, B)`. -/
def tripleARequiresB : UsageKnowledgeTriple :=
  { head := "A", relation := "requires", tail := "B" }

/-- Fixture: the triple `(a, requires, b)` (head/tail case variant). -/
def tripleLowerARequiresB : UsageKnowledgeTriple :=
  { head := "a", relation := "requires", tail := "b" }

/-- Fixture: the triple `(a, REQUIRES, b)` (relation case variant). -/
def tripleUpperRelation : UsageKnowledgeTriple :=
  { head := "a", relation := "REQUIRES", tail := "b" }

/-- Fixture: a one-triple graph whose triple is already DEPRECATED. -/
def kgDeprecatedFixture : KnowledgeGraph :=
  { triples := [({ tripleARequiresB with status := .deprecated })] }

/-! ## Helper lemmas: the lexicographic comparator -/

theorem cons_lt_cons_iff (a b : Char) (as bs : List Char) :
    List.lt (b :: bs) (a :: as) ↔ b < a ∨ (b = a ∧ List.lt bs as) := by
  constructor
  · intro h
    cases h with
    | head _ _ hlt => exact Or.inl hlt
    | tail h1 h2 h3 => exact Or.inr ⟨le_antisymm (not_lt.mp h2) (not_lt.mp h1), h3⟩
  · intro h
    rcases h with hlt | ⟨rfl, h3⟩
    · exact List.lt.head _ _ hlt
    · exact List.lt.tail (lt_irrefl b) (lt_irrefl b) h3

theorem not_lt_nil (ys : List Char) : ¬ List.lt ys [] := by
  intro h
  cases h

theorem lexLe_eq_true_iff (xs : List Char) :
    ∀ ys : List Char, lexLe xs ys = true ↔ ¬ List.lt ys xs := by
  induction xs with
  | nil =>
    intro ys
    simp [lexLe, not_lt_nil]
  | cons a as ih =>
    intro ys
    cases ys with
    | nil =>
      simp only [lexLe]
      constructor
      · intro h
        exact absurd h (by simp)
      · intro h
        exact absurd (List.lt.nil a as) h
    | cons b bs =>
      simp only [lexLe, cons_lt_cons_iff]
      by_cases hab : a = b
      · subst hab
        simp [ih bs]
      · simp only [if_neg hab]
        have hba : b ≠ a := fun h => hab h.symm
        rcases lt_trichotomy a b with hlt | heq | hgt
        · simp [hlt, not_lt.mpr hlt.le, hba]
        · exact absurd heq hab
        · simp [hgt, lt_asymm hgt, hba]

/-- The Boolean comparator used by the version-range check agrees with the
lexicographic order on strings. -/
theorem lexLe_iff_le (a b : String) : lexLe a.data b.data = true ↔ a ≤ b := by
  rw [lexLe_eq_true_iff, List.lt_iff_lex_lt, String.le_iff_toList_le]
  exact @not_lt (List Char) _ b.toList a.toList

/-! ## Helper lemmas: character search, removal, splitting -/

theorem hasChar_iff_mem (c : Char) (xs : List Char) :
    hasChar c xs = true ↔ c ∈ xs := by
  induction xs with
  | nil => simp [hasChar]
  | cons a rest ih =>
    simp only [hasChar, Bool.or_eq_true, decide_eq_true_eq, ih, List.mem_cons]
    constructor
    · rintro (rfl | h)
      · exact Or.inl rfl
      · exact Or.inr h
    · rintro (rfl | h)
      · exact Or.inl rfl
      · exact Or.inr h

theorem hasChar_eq_false_iff (c : Char) (xs : List Char) :
    hasChar c xs = false ↔ c ∉ xs := by
  rw [← Bool.not_eq_true, not_iff_not, hasChar_iff_mem]

theorem removeChar_append_single (c : Char) (xs : List Char) (h : c ∉ xs) :
    removeChar c (xs ++ [c]) = xs := by
  simp only [removeChar, List.filter_append]
  rw [List.filter_eq_self.mpr, List.filter_cons, List.filter_nil]
  · simp
  · intro a ha
    simp only [ne_eq, decide_eq_true_eq]
    intro hac
    exact h (hac ▸ ha)

theorem splitDashAux_no_dash (xs : List Char) (h : '-' ∉ xs) :
    splitDashAux xs = (xs, []) := by
  induction xs with
  | nil => rfl
  | cons a rest ih =>
    have ha : a ≠ '-' := fun hc => h (hc ▸ List.mem_cons_self a rest)
    have hrest : '-' ∉ rest := fun hc => h (List.mem_cons_of_mem a hc)
    simp [splitDashAux, ha, ih hrest]

theorem splitDashAux_append (xs ys : List Char) (h : '-' ∉ xs) :
    splitDashAux (xs ++ '-' :: ys) =
      (xs, (splitDashAux ys).1 :: (splitDashAux ys).2) := by
  induction xs with
  | nil => simp [splitDashAux]
  | cons a rest ih =>
    have ha : a ≠ '-' := fun hc => h (hc ▸ List.mem_cons_self a rest)
    have hrest : '-' ∉ rest := fun hc => h (List.mem_cons_of_mem a hc)
    simp [splitDashAux, if_neg ha, ih hrest]

theorem splitDash_two_parts (xs ys : List Char)
    (hx : '-' ∉ xs) (hy : '-' ∉ ys) :
    splitDash (xs ++ '-' :: ys) = [xs, ys] := by
  have := splitDashAux_append xs ys hx
  simp only [splitDash, this, splitDashAux_no_dash ys hy]

/-! ## C2: version-range containment -/

/-- C2: under the baseline lexicographic comparator, a range of
`"unknown"` contains every query version; `"V+"` contains `q` iff
`q >= V`; `"V1-V2"` contains `q` iff `V1 <= q <= V2`; and the concrete
examples `contains("2020+","2019")==false`, `contains("2020+","2020")`,
`contains("2020+","2021")`, `contains("2019-2023","2021")`,
`contains("2019-2023","2024")==false` all hold. -/
theorem version_range_containment :
    (∀ v : String, versionMatch "unknown" v = true) ∧
    (∀ V q : String, '+' ∉ V.data →
      (versionMatch (V ++ "+") q = true ↔ V ≤ q)) ∧
    (∀ V1 V2 q : String, '+' ∉ V1.data → '+' ∉ V2.data →
      '-' ∉ V1.data → '-' ∉ V2.data →
      (versionMatch (V1 ++ "-" ++ V2) q = true ↔ V1 ≤ q ∧ q ≤ V2)) ∧
    versionMatch "2020+" "2019" = false ∧
    versionMatch "2020+" "2020" = true ∧
    versionMatch "2020+" "2021" = true ∧
    versionMatch "2019-2023" "2021" = true ∧
    versionMatch "2019-2023" "2024" = false := by
  refine ⟨fun v => rfl, ?_, ?_, by decide, by decide, by decide,
    by decide, by decide⟩
  · intro V q hV
    have hdata : (V ++ "+").data = V.data ++ ['+'] := by
      simp [String.data_append]
    have hne1 : ¬ (V ++ "+" = "") := by
      intro h
      have h2 := congrArg String.data h
      rw [hdata] at h2
      simp at h2
    have hne2 : ¬ (V ++ "+" = "unknown") := by
      intro h
      have hmem : '+' ∈ (V ++ "+").data := by
        rw [hdata]
        exact List.mem_append_right _ (by simp)
      rw [h] at hmem
      exact absurd hmem (by decide)
    have hplus : hasChar '+' (V.data ++ ['+']) = true := by
      rw [hasChar_iff_mem]
      exact List.mem_append_right _ (by simp)
    simp only [versionMatch, hdata]
    rw [if_neg (by simp [hne1, hne2]), if_pos hplus,
      removeChar_append_single '+' V.data hV, lexLe_iff_le]
  · intro V1 V2 q hp1 hp2 hd1 hd2
    have hdata : (V1 ++ "-" ++ V2).data = V1.data ++ '-' :: V2.data := by
      simp [String.data_append]
    have hmem : '-' ∈ (V1 ++ "-" ++ V2).data := by
      rw [hdata]
      exact List.mem_append_right _ (by simp)
    have hne1 : ¬ (V1 ++ "-" ++ V2 = "") := by
      intro h
      rw [h] at hmem
      exact absurd hmem (by decide)
    have hne2 : ¬ (V1 ++ "-" ++ V2 = "unknown") := by
      intro h
      rw [h] at hmem
      exact absurd hmem (by decide)
    have hplus : hasChar '+' (V1.data ++ '-' :: V2.data) = false := by
      rw [hasChar_eq_false_iff]
      intro h
      rcases List.mem_append.mp h with h1 | h1
      · exact hp1 h1
      · rcases List.mem_cons.mp h1 with h2 | h2
        · exact absurd h2 (by decide)
        · exact hp2 h2
    have hdash : hasChar '-' (V1.data ++ '-' :: V2.data) = true := by
      rw [hasChar_iff_mem]
      exact List.mem_append_right _ (by simp)
    simp only [versionMatch, hdata]
    rw [if_neg (by simp [hne1, hne2]), if_neg (by simp [hplus]), if_pos hdash,
      splitDash_two_parts V1.data V2.data hd1 hd2]
    simp only [Bool.and_eq_true, lexLe_iff_le]

/-- Witness for C2 at concrete inputs. -/
theorem version_range_containment_witness :
    versionMatch ("2020" ++ "+") "2021" = true ∧
    versionMatch ("2019" ++ "-" ++ "2023") "2021" = true :=
  ⟨(version_range_containment.2.1 "2020" "2021" (by decide)).mpr
      ((lexLe_iff_le "2020" "2021").mp (by decide)),
   (version_range_containment.2.2.1 "2019" "2023" "2021" (by decide)
      (by decide) (by decide) (by decide)).mpr
      ⟨(lexLe_iff_le "2019" "2021").mp (by decide),
       (lexLe_iff_le "2021" "2023").mp (by decide)⟩⟩

/-! ## C10: ranges invisible to the active-knowledge query -/

/-- C10: the active-knowledge query treats an empty `valid_version_range`
exactly like `"unknown"` (the triple is returned for every query version);
it excludes, for every query version, any ACTIVE triple whose range is
non-empty, not `"unknown"`, and contains neither `'+'` nor `'-'`; and it
excludes any ACTIVE triple whose range contains `'-'` (and no `'+'`) but
does not split on `'-'` into exactly two parts. -/
theorem active_query_version_gaps :
    (∀ (kg : KnowledgeGraph) (v : String) (t : UsageKnowledgeTriple),
      t ∈ kg.triples → t.status = TripleStatus.active →
      t.valid_version_range = "" → t ∈ getKnowledgeForVersion kg v) ∧
    (∀ (kg : KnowledgeGraph) (v : String) (t : UsageKnowledgeTriple),
      t.status = TripleStatus.active →
      t.valid_version_range ≠ "" → t.valid_version_range ≠ "unknown" →
      '+' ∉ t.valid_version_range.data → '-' ∉ t.valid_version_range.data →
      t ∉ getKnowledgeForVersion kg v) ∧
    (∀ (kg : KnowledgeGraph) (v : String) (t : UsageKnowledgeTriple),
      t.status = TripleStatus.active →
      '-' ∈ t.valid_version_range.data → '+' ∉ t.valid_version_range.data →
      (splitDash t.valid_version_range.data).length ≠ 2 →
      t ∉ getKnowledgeForVersion kg v) := by
  refine ⟨?_, ?_, ?_⟩
  · intro kg v t ht hstat hrange
    refine List.mem_filter.mpr ⟨ht, ?_⟩
    simp [hstat, hrange, versionMatch]
  · intro kg v t hstat hne1 hne2 hplus hdash hmem
    have hplusB : hasChar '+' t.valid_version_range.data = false :=
      (hasChar_eq_false_iff _ _).mpr hplus
    have hdashB : hasChar '-' t.valid_version_range.data = false :=
      (hasChar_eq_false_iff _ _).mpr hdash
    have hp := (List.mem_filter.mp hmem).2
    simp only [Bool.and_eq_true, decide_eq_true_eq] at hp
    have hvm := hp.2
    simp only [versionMatch] at hvm
    rw [if_neg (by simp [hne1, hne2]), if_neg (by simp [hplusB]),
      if_neg (by simp [hdashB])] at hvm
    exact Bool.false_ne_true hvm
  · intro kg v t hstat hdash hplus hlen hmem
    have hne1 : ¬ (t.valid_version_range = "") := by
      intro h
      rw [h] at hdash
      exact absurd hdash (by decide)
    have hne2 : ¬ (t.valid_version_range = "unknown") := by
      intro h
      rw [h] at hdash
      exact absurd hdash (by decide)
    have hplusB : hasChar '+' t.valid_version_range.data = false :=
      (hasChar_eq_false_iff _ _).mpr hplus
    have hp := (List.mem_filter.mp hmem).2
    simp only [Bool.and_eq_true, decide_eq_true_eq] at hp
    have hvm := hp.2
    simp only [versionMatch] at hvm
    rw [if_neg (by simp [hne1, hne2]), if_neg (by simp [hplusB]),
      if_pos ((hasChar_iff_mem '-' _).mpr hdash)] at hvm
    rcases h2 : splitDash t.valid_version_range.data with _ | ⟨a, _ | ⟨b, _ | ⟨c, rest⟩⟩⟩
    · rw [h2] at hvm
      simp at hvm
    · rw [h2] at hvm
      simp at hvm
    · rw [h2] at hlen
      simp at hlen
    · rw [h2] at hvm
      simp at hvm

/-- Witness for C10 at concrete inputs: a bare version label `"2023"` and
a doubly hyphenated range are invisible to the query, while an empty
range is returned. -/
theorem active_query_version_gaps_witness :
    ({ head := "h", relation := "r", tail := "t",
       valid_version_range := "" } : UsageKnowledgeTriple) ∈
      getKnowledgeForVersion
        { triples := [{ head := "h", relation := "r", tail := "t",
                        valid_version_range := "" }] } "2024" ∧
    ({ head := "h", relation := "r", tail := "t",
       valid_version_range := "2023" } : UsageKnowledgeTriple) ∉
      getKnowledgeForVersion
        { triples := [{ head := "h", relation := "r", tail := "t",
                        valid_version_range := "2023" }] } "2023" ∧
    ({ head := "h", relation := "r", tail := "t",
       valid_version_range := "2019-2021-2023" } : UsageKnowledgeTriple) ∉
      getKnowledgeForVersion
        { triples := [{ head := "h", relation := "r", tail := "t",
                        valid_version_range := "2019-2021-2023" }] } "2020" :=
  ⟨active_query_version_gaps.1 _ "2024" _ (by decide) rfl rfl,
   active_query_version_gaps.2.1 _ "2023" _ rfl (by decide) (by decide)
     (by decide) (by decide),
   active_query_version_gaps.2.2 _ "2020" _ rfl (by decide) (by decide)
     (by decide)⟩

/-! ## C1: triple integration and deduplication -/

theorem integrateLoop_sublist (l : List UsageKnowledgeTriple) :
    ∀ seen : List String, (integrateLoop l seen).Sublist l := by
  induction l with
  | nil => intro seen; simp [integrateLoop]
  | cons a rest ih =>
    intro seen
    simp only [integrateLoop]
    split
    · exact (ih seen).cons a
    · exact (ih _).cons₂ a

theorem integrateLoop_key_not_seen (l : List UsageKnowledgeTriple) :
    ∀ (seen : List String) (t : UsageKnowledgeTriple),
      t ∈ integrateLoop l seen → tripleKey t ∉ seen := by
  induction l with
  | nil => intro seen t ht; simp [integrateLoop] at ht
  | cons a rest ih =>
    intro seen t ht
    simp only [integrateLoop] at ht
    split at ht
    · exact ih seen t ht
    · rcases List.mem_cons.mp ht with rfl | ht2
      · assumption
      · intro hc
        exact ih _ t ht2 (List.mem_cons_of_mem _ hc)

theorem integrateLoop_keys_nodup (l : List UsageKnowledgeTriple) :
    ∀ seen : List String, ((integrateLoop l seen).map tripleKey).Nodup := by
  induction l with
  | nil => intro seen; simp [integrateLoop]
  | cons a rest ih =>
    intro seen
    simp only [integrateLoop]
    split
    · exact ih seen
    · simp only [List.map_cons, List.nodup_cons]
      refine ⟨?_, ih _⟩
      intro hc
      obtain ⟨u, hu, hku⟩ := List.mem_map.mp hc
      exact integrateLoop_key_not_seen rest _ u hu (hku ▸ List.mem_cons_self _ _)

theorem integrateLoop_complete (l : List UsageKnowledgeTriple) :
    ∀ (seen : List String) (t : UsageKnowledgeTriple), t ∈ l →
      tripleKey t ∉ seen →
      ∃ u ∈ integrateLoop l seen, tripleKey u = tripleKey t := by
  induction l with
  | nil => intro seen t ht; simp at ht
  | cons a rest ih =>
    intro seen t ht hk
    simp only [integrateLoop]
    rcases List.mem_cons.mp ht with rfl | ht2
    · split
      · exact absurd (by assumption) hk
      · exact ⟨t, List.mem_cons_self _ _, rfl⟩
    · split
      · exact ih seen t ht2 hk
      · by_cases hke : tripleKey t = tripleKey a
        · exact ⟨a, List.mem_cons_self _ _, hke.symm⟩
        · have hk2 : tripleKey t ∉ tripleKey a :: seen := by
            intro hc
            rcases List.mem_cons.mp hc with h | h
            · exact hke h
            · exact hk h
          obtain ⟨u, hu, hku⟩ := ih _ t ht2 hk2
          exact ⟨u, List.mem_cons_of_mem _ hu, hku⟩

/-- Counterexample for C1: the claim predicts that `(A, requires, B)` and
`(a, REQUIRES, b)` collapse to one stored triple under a key that is
case-insensitive in all three components, but `integrate_triples` keeps
both because the relation is compared case-sensitively. -/
theorem integrate_triples_relation_case_counterexample :
    (integrate_triples [tripleARequiresB, tripleUpperRelation] []).1 =
      [tripleARequiresB, tripleUpperRelation] ∧
    claimIntegrateLoopAllLower [tripleARequiresB, tripleUpperRelation] [] =
      [tripleARequiresB] := by
  decide

/-- C1 (amended): `integrate_triples` returns, in input order, exactly the
new triples whose identity key — lowercased head and tail around the
verbatim, case-sensitively compared relation — occurs neither among the
existing triples nor among earlier accepted triples of the batch:
the result is a subsequence of the batch, its keys avoid the existing keys
and are pairwise distinct, every fresh-keyed batch member is represented,
integrating the same triple (or a head/tail case variant) twice yields one
stored triple, but relation case variants are not collapsed. -/
theorem integrate_triples_dedup :
    (∀ newTs exTs, ((integrate_triples newTs exTs).1).Sublist newTs) ∧
    (∀ newTs exTs t, t ∈ (integrate_triples newTs exTs).1 →
      tripleKey t ∉ exTs.map tripleKey) ∧
    (∀ newTs exTs, (((integrate_triples newTs exTs).1).map tripleKey).Nodup) ∧
    (∀ newTs exTs t, t ∈ newTs → tripleKey t ∉ exTs.map tripleKey →
      ∃ u ∈ (integrate_triples newTs exTs).1, tripleKey u = tripleKey t) ∧
    (∀ t u : UsageKnowledgeTriple, tripleKey t = tripleKey u →
      (integrate_triples [t, u] []).1 = [t]) ∧
    (integrate_triples [tripleARequiresB, tripleLowerARequiresB] []).1 =
      [tripleARequiresB] ∧
    (integrate_triples [tripleARequiresB, tripleUpperRelation] []).1 =
      [tripleARequiresB, tripleUpperRelation] := by
  refine ⟨?_, ?_, ?_, ?_, ?_, by decide, by decide⟩
  · intro newTs exTs
    rw [integrate_triples]
    split
    · simp_all
    · exact integrateLoop_sublist newTs _
  · intro newTs exTs t ht
    rw [integrate_triples] at ht
    split at ht
    · simp at ht
    · exact integrateLoop_key_not_seen newTs _ t ht
  · intro newTs exTs
    rw [integrate_triples]
    split
    · simp
    · exact integrateLoop_keys_nodup newTs _
  · intro newTs exTs t ht hk
    rw [integrate_triples]
    split
    · subst_vars; simp at ht
    · exact integrateLoop_complete newTs _ t ht hk
  · intro t u hk
    simp [integrate_triples, integrateLoop, hk]

/-- Witness for C1 at concrete inputs: integrating the same triple twice
yields one stored triple, and a fresh-keyed triple is represented. -/
theorem integrate_triples_dedup_witness :
    (integrate_triples [tripleARequiresB, tripleARequiresB] []).1 =
      [tripleARequiresB] ∧
    ∃ u ∈ (integrate_triples [tripleARequiresB] []).1,
      tripleKey u = tripleKey tripleARequiresB :=
  ⟨integrate_triples_dedup.2.2.2.2.1 tripleARequiresB tripleARequiresB rfl,
   integrate_triples_dedup.2.2.2.1 [tripleARequiresB] [] tripleARequiresB
     (by decide) (by decide)⟩

/-! ## C3: entity-id derivation and registration -/

theorem find?_map_overwrite (k : String) (v : SoftwareEntity) :
    ∀ m : List (String × SoftwareEntity),
      (m.any fun p => decide (p.1 = k)) = true →
      ((m.map fun p => if p.1 = k then (p.1, v) else p).find?
        fun p => decide (p.1 = k)) = some (k, v) := by
  intro m
  induction m with
  | nil => simp
  | cons p rest ih =>
    intro h
    by_cases hp : p.1 = k
    · subst hp
      simp [List.find?_cons_of_pos]
    · have h2 : (rest.any fun p => decide (p.1 = k)) = true := by
        simp only [List.any_cons, Bool.or_eq_true, decide_eq_true_eq] at h
        rcases h with h | h
        · exact absurd h hp
        · exact h
      rw [List.map_cons, if_neg hp,
        List.find?_cons_of_neg _ (by simpa using hp), ih h2]

theorem find?_append_fresh (k : String) (v : SoftwareEntity) :
    ∀ m : List (String × SoftwareEntity),
      (m.any fun p => decide (p.1 = k)) = false →
      ((m ++ [(k, v)]).find? fun p => decide (p.1 = k)) = some (k, v) := by
  intro m
  induction m with
  | nil => simp
  | cons p rest ih =>
    intro h
    simp only [List.any_cons, Bool.or_eq_false_iff, decide_eq_false_iff_not] at h
    rw [List.cons_append,
      List.find?_cons_of_neg _ (by simpa using h.1), ih (by simp [h.2])]

/-- Registration by id is overwrite-on-assignment: after registering `e`,
looking its id up yields `e` itself, whatever was registered before. -/
theorem lookup_register_self (m : List (String × SoftwareEntity))
    (e : SoftwareEntity) :
    lookupEntity (registerEntity m e) e.entity_id = some e := by
  rw [lookupEntity, registerEntity]
  split
  · rw [find?_map_overwrite e.entity_id e m (by assumption)]
    rfl
  next h =>
    rw [find?_append_fresh e.entity_id e m (Bool.eq_false_iff.mpr h)]
    rfl

/-- Counterexample for C3: a UI element extracted by
`extract_ui_elements` gets id `ui_export_button`, while the same entity
created from a change record gets id `uielement_export_button` — the
derived id depends on which source creates the entity; moreover
registration by id overwrites, so a second registration under an existing
id replaces the first-registered entity's description. -/
theorem entity_id_source_counterexample :
    uiEntityId "Export Button" = "ui_export_button" ∧
    changeEntityId EntityType.uiElement "Export Button" =
      "uielement_export_button" ∧
    uiEntityId "Export Button" ≠
      changeEntityId EntityType.uiElement "Export Button" ∧
    (lookupEntity
      (registerEntity
        (registerEntity []
          { entity_id := "feature_x", name := "X", description := "first" })
        { entity_id := "feature_x", name := "x", description := "second" })
      "feature_x").map SoftwareEntity.description = some "second" := by
  decide

/-- C3 (amended): entity ids are deterministic in the entity type and the
ASCII-lowercased name within each creation path — case variants of a name
yield the same id both for the change-derived path and for the
UI-extraction path — but the UI-extraction path uses the fixed prefix
`"ui_"` while the change-derived path uses the lowercased type value, so
the two sources disagree on UIElement ids; and registration into the
graph is by id assignment, so the second registration under the same id
replaces the first-registered entity (its description included). -/
theorem entity_id_determinism :
    (∀ (ty : EntityType) (n1 n2 : String),
      lowerString n1 = lowerString n2 →
      changeEntityId ty n1 = changeEntityId ty n2) ∧
    (∀ n1 n2 : String, lowerString n1 = lowerString n2 →
      uiEntityId n1 = uiEntityId n2) ∧
    (∀ (m : List (String × SoftwareEntity)) (e : SoftwareEntity),
      lookupEntity (registerEntity m e) e.entity_id = some e) := by
  refine ⟨?_, ?_, lookup_register_self⟩
  · intro ty n1 n2 h
    rw [changeEntityId, changeEntityId, slug, slug, h]
  · intro n1 n2 h
    rw [uiEntityId, uiEntityId, slug, slug, h]

/-- Witness for C3 at concrete inputs. -/
theorem entity_id_determinism_witness :
    changeEntityId EntityType.feature "Generative Fill" =
      changeEntityId EntityType.feature "GENERATIVE FILL" ∧
    uiEntityId "Export Button" = uiEntityId "export button" :=
  ⟨entity_id_determinism.1 EntityType.feature "Generative Fill"
      "GENERATIVE FILL" (by decide),
   entity_id_determinism.2.1 "Export Button" "export button" (by decide)⟩

/-! ## C5: change-to-triple synthesis for an `"added"` change -/

/-- Fixture: the `"added"` change record for the Generative Fill feature. -/
def genFillChange : ChangeRecord :=
  { change_type := "added", entity_name := "Generative Fill",
    entity_type := EntityType.feature, version := "2024" }

/-- C5: every synthesized triple inherits the graph's primary software
name, and the concrete `"added"` change for Generative Fill in 2024
synthesizes exactly one `(Generative Fill, introduced_in, 2024)` triple
with confidence 0.95 and valid range `"2024+"`, and exactly one new
Feature entity with `version_introduced = "2024"`. -/
theorem change_added_synthesis :
    (∀ (change : ChangeRecord) (version software : String)
      (t : UsageKnowledgeTriple),
      t ∈ synthesizeChangeTriples change version software →
      t.software = software) ∧
    (∀ software : String,
      synthesizeChangeTriples genFillChange "2024" software =
        [{ head := "Generative Fill", relation := "introduced_in",
           tail := "2024", head_type := EntityType.feature,
           tail_type := EntityType.version, introduced_version := "2024",
           valid_version_range := "2024+", confidence := 0.95,
           software := software }] ∧
      changeNewEntity genFillChange "2024" software =
        some { entity_id := "feature_generative_fill",
               name := "Generative Fill",
               entity_type := EntityType.feature,
               version_introduced := "2024", software := software }) := by
  constructor
  · intro change version software t ht
    rw [synthesizeChangeTriples] at ht
    split_ifs at ht with h1 h2 h3 h4 h5 <;>
      simp only [List.mem_cons, List.mem_singleton, List.not_mem_nil,
        or_false] at ht
    · subst ht
      rfl
    · rcases ht with rfl | rfl <;> rfl
    · subst ht
      rfl
    · rcases ht with rfl | rfl <;> rfl
    · subst ht
      rfl
  · intro software
    exact ⟨rfl, rfl⟩

/-- Witness for C5 at a concrete input. -/
theorem change_added_synthesis_witness :
    ({ head := "Generative Fill", relation := "introduced_in",
       tail := "2024", head_type := EntityType.feature,
       tail_type := EntityType.version, introduced_version := "2024",
       valid_version_range := "2024+", confidence := 0.95,
       software := "Photoshop" } : UsageKnowledgeTriple).software =
      "Photoshop" :=
  change_added_synthesis.1 genFillChange "2024" "Photoshop" _
    (by simp [synthesizeChangeTriples, genFillChange, RelationType.value])

/-! ## C6: procedure-derived triples -/

/-- C6: a procedure with 3 steps and a non-empty outcome yields exactly
one ACHIEVES triple, exactly three PART_OF triples with `step_order`
1, 2, 3 in order, and exactly two NEXT_STEP triples; with an empty
outcome no ACHIEVES triple is emitted. -/
theorem procedure_derived_triples :
    (∀ (proc : Procedure) (software : String), proc.steps.length = 3 →
      proc.outcome ≠ "" →
      ((deriveProcedureTriples proc software).filter
        (fun t => decide (t.relation = "achieves"))).length = 1 ∧
      ((deriveProcedureTriples proc software).filter
        (fun t => decide (t.relation = "part_of"))).map
          UsageKnowledgeTriple.step_order = [1, 2, 3] ∧
      ((deriveProcedureTriples proc software).filter
        (fun t => decide (t.relation = "next_step"))).length = 2) ∧
    (∀ (proc : Procedure) (software : String), proc.outcome = "" →
      ((deriveProcedureTriples proc software).filter
        (fun t => decide (t.relation = "achieves"))).length = 0) := by
  constructor
  · intro proc software h3 houtcome
    obtain ⟨a, b, c, hsteps⟩ := List.length_eq_three.mp h3
    refine ⟨?_, ?_, ?_⟩ <;>
      simp [deriveProcedureTriples, procStepTriples, hsteps, houtcome,
        RelationType.value]
  · intro proc software houtcome
    have hfilter : ∀ (l : List String) (prev : Option String) (i : Nat),
        ((procStepTriples proc.name software l prev i).filter
          (fun t => decide (t.relation = "achieves"))).length = 0 := by
      intro l
      induction l with
      | nil => intro prev i; rfl
      | cons s rest ih =>
        intro prev i
        cases prev <;>
          simp [procStepTriples, ih, RelationType.value]
    simp [deriveProcedureTriples, houtcome, hfilter]

/-- Witness for C6 at a concrete input. -/
theorem procedure_derived_triples_witness :
    ((deriveProcedureTriples
      { procedure_id := "p1", name := "Remove Background",
        steps := ["Open the image", "Select the subject", "Delete"],
        outcome := "transparent background" } "Photoshop").filter
      (fun t => decide (t.relation = "part_of"))).map
        UsageKnowledgeTriple.step_order = [1, 2, 3] :=
  (procedure_derived_triples.1
    { procedure_id := "p1", name := "Remove Background",
      steps := ["Open the image", "Select the subject", "Delete"],
      outcome := "transparent background" } "Photoshop"
    (by decide) (by decide)).2.1

/-! ## C7: impact application and out-of-range tolerance -/

/-- C7: an in-range `"deprecated"` impact sets the triple's status to
DEPRECATED, stamps its `deprecated_version` with the update version, and
appends it to the deprecated-triples report; an in-range `"needs_update"`
impact sets the status to NEEDS_REVIEW; an impact whose index is out of
the triple store's bounds changes nothing. -/
theorem impact_application :
    ∀ (ts report : List UsageKnowledgeTriple) (version : String)
      (imp : ImpactResult) (t : UsageKnowledgeTriple),
      (0 ≤ imp.triple_index →
        ts.get? imp.triple_index.toNat = some t →
        ((imp.impact = "deprecated" →
          applyImpact version (ts, report) imp =
            (ts.set imp.triple_index.toNat
              ({ t with
                  status := .deprecated
                  deprecated_version := version }),
             report ++ [({ t with
                  status := .deprecated
                  deprecated_version := version })])) ∧
         (imp.impact = "needs_update" →
          applyImpact version (ts, report) imp =
            (ts.set imp.triple_index.toNat { t with status := .needsReview },
             report)))) ∧
      (imp.triple_index < 0 ∨ (ts.length : Int) ≤ imp.triple_index →
        applyImpact version (ts, report) imp = (ts, report)) := by
  intro ts report version imp t
  constructor
  · intro h0 hget
    rw [applyImpact, if_neg (not_lt.mpr h0)]
    simp only [hget]
    constructor
    · intro himp
      rw [if_pos himp]
    · intro himp
      rw [if_neg (by simp [himp]), if_pos himp]
  · intro h
    rcases h with hlt | hge
    · rw [applyImpact, if_pos hlt]
    · have h0 : (0 : Int) ≤ imp.triple_index :=
        le_trans (Int.natCast_nonneg ts.length) hge
      have hnone : ts.get? imp.triple_index.toNat = none := by
        rw [List.get?_eq_none]
        exact ((Int.le_toNat h0).mpr hge)
      rw [applyImpact, if_neg (not_lt.mpr h0)]
      simp only [hnone]

/-- Witness for C7 at concrete inputs: one in-range deprecation and one
out-of-range impact that is ignored. -/
theorem impact_application_witness :
    applyImpact "2025" ([tripleARequiresB], []) ⟨0, "deprecated"⟩ =
      ([({ tripleARequiresB with
             status := .deprecated
             deprecated_version := "2025" })],
       [({ tripleARequiresB with
             status := .deprecated
             deprecated_version := "2025" })]) ∧
    applyImpact "2025" ([tripleARequiresB], []) ⟨5, "deprecated"⟩ =
      ([tripleARequiresB], []) :=
  ⟨((impact_application [tripleARequiresB] [] "2025" ⟨0, "deprecated"⟩
      tripleARequiresB).1 (by decide) (by decide)).1 rfl,
   (impact_application [tripleARequiresB] [] "2025" ⟨5, "deprecated"⟩
      tripleARequiresB).2 (Or.inr (by decide))⟩

/-! ## C4: status monotonicity across the API surface -/

theorem applyImpact_preserves_nonactive (version : String)
    (imp : ImpactResult)
    (st : List UsageKnowledgeTriple × List UsageKnowledgeTriple)
    (i : Nat) (t : UsageKnowledgeTriple)
    (hget : st.1.get? i = some t) (hstat : t.status ≠ .active) :
    ∃ t', (applyImpact version st imp).1.get? i = some t' ∧
      t'.status ≠ .active := by
  rw [applyImpact]
  split
  · exact ⟨t, hget, hstat⟩
  · split
    · exact ⟨t, hget, hstat⟩
    next u hu =>
      split
      · by_cases hi : imp.triple_index.toNat = i
        · subst hi
          refine ⟨{ u with status := .deprecated, deprecated_version := version },
            ?_, ?_⟩
          · rw [List.get?_set_eq, hu]
            rfl
          · intro hc
            simp at hc
        · exact ⟨t, by dsimp only; rw [List.get?_set_ne _ _ hi]; exact hget, hstat⟩
      · split
        · by_cases hi : imp.triple_index.toNat = i
          · subst hi
            refine ⟨{ u with status := .needsReview }, ?_, ?_⟩
            · rw [List.get?_set_eq, hu]
              rfl
            · intro hc
              simp at hc
          · exact ⟨t, by dsimp only; rw [List.get?_set_ne _ _ hi]; exact hget, hstat⟩
        · exact ⟨t, hget, hstat⟩

theorem applyImpacts_foldl_preserves_nonactive (version : String)
    (impacts : List ImpactResult) :
    ∀ (st : List UsageKnowledgeTriple × List UsageKnowledgeTriple)
      (i : Nat) (t : UsageKnowledgeTriple),
      st.1.get? i = some t → t.status ≠ .active →
      ∃ t', (impacts.foldl (applyImpact version) st).1.get? i = some t' ∧
        t'.status ≠ .active := by
  induction impacts with
  | nil => exact fun st i t hget hstat => ⟨t, hget, hstat⟩
  | cons imp rest ih =>
    intro st i t hget hstat
    obtain ⟨t1, hget1, hstat1⟩ :=
      applyImpact_preserves_nonactive version imp st i t hget hstat
    exact ih (applyImpact version st imp) i t1 hget1 hstat1

theorem applyOp_preserves_nonactive (kg : KnowledgeGraph) (op : PipelineOp)
    (i : Nat) (t : UsageKnowledgeTriple)
    (hget : kg.triples.get? i = some t) (hstat : t.status ≠ .active) :
    ∃ t', (applyOp kg op).triples.get? i = some t' ∧
      t'.status ≠ .active := by
  have hlen : i < kg.triples.length := (List.get?_eq_some.mp hget).1
  cases op with
  | ingest ents procs newTriples software version =>
    refine ⟨t, ?_, hstat⟩
    simp only [applyOp]
    rw [List.get?_append hlen]
    exact hget
  | update impacts changes version =>
    obtain ⟨t1, hget1, hstat1⟩ :=
      applyImpacts_foldl_preserves_nonactive version impacts
        (kg.triples, []) i t hget hstat
    have hlen1 : i < (applyImpacts kg.triples impacts version).1.length :=
      (List.get?_eq_some.mp hget1).1
    refine ⟨t1, ?_, hstat1⟩
    simp only [applyOp]
    rw [List.get?_append hlen1]
    exact hget1
  | queryActive version => exact ⟨t, hget, hstat⟩
  | queryOutdated => exact ⟨t, hget, hstat⟩
  | exportGraph => exact ⟨t, hget, hstat⟩

theorem applyOps_preserves_nonactive (ops : List PipelineOp) :
    ∀ (kg : KnowledgeGraph) (i : Nat) (t : UsageKnowledgeTriple),
      kg.triples.get? i = some t → t.status ≠ .active →
      ∃ t', (ops.foldl applyOp kg).triples.get? i = some t' ∧
        t'.status ≠ .active := by
  induction ops with
  | nil => exact fun kg i t hget hstat => ⟨t, hget, hstat⟩
  | cons op rest ih =>
    intro kg i t hget hstat
    obtain ⟨t1, hget1, hstat1⟩ :=
      applyOp_preserves_nonactive kg op i t hget hstat
    exact ih (applyOp kg op) i t1 hget1 hstat1

/-- C4: once a triple's status is DEPRECATED or NEEDS_REVIEW, no sequence
of operations of the defined API surface (ingestion, update processing,
queries, export) ever returns it to ACTIVE: after any such sequence the
triple at the same position still exists and is not ACTIVE. -/
theorem triple_status_monotonic (ops : List PipelineOp)
    (kg : KnowledgeGraph) (i : Nat) (t : UsageKnowledgeTriple)
    (hget : kg.triples.get? i = some t)
    (hstat : t.status = .deprecated ∨ t.status = .needsReview) :
    ∃ t', (ops.foldl applyOp kg).triples.get? i = some t' ∧
      t'.status ≠ .active := by
  refine applyOps_preserves_nonactive ops kg i t hget ?_
  rcases hstat with h | h <;> simp [h]

/-- Witness for C4 at concrete inputs: a deprecated triple stays
non-ACTIVE across an update (with an impact aimed at it), an ingestion,
and a query. -/
theorem triple_status_monotonic_witness :
    ∃ t', (([PipelineOp.update [⟨0, "needs_update"⟩] [genFillChange] "2025",
             PipelineOp.ingest [] [] [tripleARequiresB] "Photoshop" "2026",
             PipelineOp.queryActive "2026"].foldl applyOp
        kgDeprecatedFixture).triples.get? 0 =
      some t' ∧ t'.status ≠ .active) :=
  triple_status_monotonic _ _ 0 ({ tripleARequiresB with status := .deprecated })
    rfl (Or.inl rfl)

/-! ## C8: text segmentation -/

theorem pyStrip_nil : pyStrip [] = [] := rfl

theorem splitParaAux_no_break (t : List Char) (h : hasNL2 t = false) :
    splitParaAux t = (t, []) := by
  induction t with
  | nil => rfl
  | cons c rest ih =>
    cases rest with
    | nil => rfl
    | cons c2 rest2 =>
      simp only [hasNL2, Bool.or_eq_false_iff, Bool.and_eq_false_iff] at h
      have hcond : ¬ (c = '\n' ∧ c2 = '\n') := by
        rcases h.1 with h1 | h1 <;>
          exact fun hc => by simp [hc.1, hc.2] at h1
      rw [splitParaAux, if_neg hcond, ih h.2]

theorem splitParas_no_break (t : List Char) (h : hasNL2 t = false) :
    splitParas t = [t] := by
  rw [splitParas, splitParaAux_no_break t h]

theorem trimEnd_append_nl2 (xs : List Char) :
    trimEnd (xs ++ nl2) = trimEnd xs := by
  simp [trimEnd, nl2, List.dropWhile, pyIsSpace]

theorem pyStrip_append_nl2 (xs : List Char) :
    pyStrip (xs ++ nl2) = pyStrip xs := by
  rw [pyStrip, trimEnd_append_nl2, pyStrip]

theorem trimEnd_length_le (s : List Char) : (trimEnd s).length ≤ s.length := by
  rw [trimEnd]
  calc ((s.reverse.dropWhile pyIsSpace).reverse).length
      = (s.reverse.dropWhile pyIsSpace).length := List.length_reverse _
    _ ≤ s.reverse.length := (List.dropWhile_sublist _).length_le
    _ = s.length := List.length_reverse _

theorem pyStrip_length_le (s : List Char) : (pyStrip s).length ≤ s.length := by
  rw [pyStrip]
  exact le_trans (List.dropWhile_sublist _).length_le (trimEnd_length_le s)

/-- The segment produced from the current buffer is good: it is either
shorter than the maximum length or the strip of a single source
paragraph. -/
def SegOk (maxLength : Nat) (allParas : List (List Char))
    (s : List Char) : Prop :=
  s.length < maxLength ∨ ∃ p ∈ allParas, s = pyStrip p

/-- Invariant of the current buffer in the packing loop: it is empty, a
single paragraph plus its separator, or strips to below the maximum. -/
def CurOk (maxLength : Nat) (allParas : List (List Char))
    (cur : List Char) : Prop :=
  cur = [] ∨ (∃ p ∈ allParas, cur = p ++ nl2) ∨
    (pyStrip cur).length < maxLength

theorem curOk_emit {maxLength : Nat} {allParas : List (List Char)}
    {cur : List Char} (hcur : CurOk maxLength allParas cur)
    (hne : pyStrip cur ≠ []) : SegOk maxLength allParas (pyStrip cur) := by
  rcases hcur with rfl | ⟨p, hp, rfl⟩ | hlt
  · exact absurd pyStrip_nil hne
  · exact Or.inr ⟨p, hp, pyStrip_append_nl2 p⟩
  · exact Or.inl hlt

theorem segmentLoop_spec (maxLength : Nat) (allParas : List (List Char)) :
    ∀ (paras segs : List (List Char)) (cur : List Char),
      (∀ p ∈ paras, p ∈ allParas) →
      (∀ s ∈ segs, SegOk maxLength allParas s) →
      CurOk maxLength allParas cur →
      (∀ s ∈ (segmentLoop maxLength paras segs cur).1,
        SegOk maxLength allParas s) ∧
      CurOk maxLength allParas (segmentLoop maxLength paras segs cur).2 := by
  intro paras
  induction paras with
  | nil => exact fun segs cur _ hsegs hcur => ⟨hsegs, hcur⟩
  | cons para rest ih =>
    intro segs cur hsub hsegs hcur
    have hsub2 : ∀ p ∈ rest, p ∈ allParas :=
      fun p hp => hsub p (List.mem_cons_of_mem _ hp)
    rw [segmentLoop]
    split
    next hfit =>
      refine ih segs (cur ++ para ++ nl2) hsub2 hsegs (Or.inr (Or.inr ?_))
      calc (pyStrip (cur ++ para ++ nl2)).length
          = (pyStrip (cur ++ para)).length := by
            rw [List.append_assoc cur para nl2]
            rw [show cur ++ (para ++ nl2) = (cur ++ para) ++ nl2 from
              (List.append_assoc cur para nl2).symm]
            rw [pyStrip_append_nl2]
        _ ≤ (cur ++ para).length := pyStrip_length_le _
        _ = cur.length + para.length := List.length_append _ _
        _ < maxLength := hfit
    next hfit =>
      refine ih _ (para ++ nl2) hsub2 ?_ (Or.inr (Or.inl
        ⟨para, hsub para (List.mem_cons_self _ _), rfl⟩))
      split
      · exact hsegs
      next hne =>
        intro s hs
        rcases List.mem_append.mp hs with hs | hs
        · exact hsegs s hs
        · rw [List.mem_singleton.mp hs]
          exact curOk_emit hcur hne

/-- Shared computation: on a text with no paragraph break, `_segment_text`
returns the trimmed text itself when it is non-whitespace, and the text
truncated to the maximum length otherwise. -/
theorem segmentText_no_break (text : List Char) (maxLength : Nat)
    (h : hasNL2 text = false) :
    segmentText text maxLength =
      if pyStrip text = [] then [text.take maxLength] else [pyStrip text] := by
  have hloop : segmentLoop maxLength [text] [] [] = ([], text ++ nl2) := by
    rw [segmentLoop]
    split
    · rw [segmentLoop]
      simp
    · rw [pyStrip_nil, if_pos rfl, segmentLoop]
  rw [segmentText, splitParas_no_break text h, hloop]
  dsimp only
  rw [pyStrip_append_nl2]
  by_cases hstrip : pyStrip text = []
  · rw [if_pos hstrip, if_pos rfl, if_pos hstrip]
  · rw [if_neg hstrip, if_neg (by simp), if_neg hstrip, List.nil_append]

theorem hasNL2_replicate (n : Nat) (c : Char) (hc : c ≠ '\n') :
    hasNL2 (List.replicate n c) = false := by
  induction n with
  | zero => rfl
  | succ m ih =>
    cases m with
    | zero => rfl
    | succ k =>
      rw [List.replicate_succ]
      rw [show List.replicate (k + 1) c = c :: List.replicate k c from
        List.replicate_succ c k]
      rw [hasNL2]
      rw [← List.replicate_succ]
      simp [hc, ih]

theorem dropWhile_replicate_of_neg (n : Nat) (c : Char)
    (hc : pyIsSpace c = false) :
    List.dropWhile pyIsSpace (List.replicate n c) = List.replicate n c := by
  cases n with
  | zero => rfl
  | succ m => rw [List.replicate_succ, List.dropWhile_cons_of_neg (by simp [hc])]

theorem pyStrip_replicate (n : Nat) (c : Char) (hc : pyIsSpace c = false) :
    pyStrip (List.replicate n c) = List.replicate n c := by
  rw [pyStrip, trimEnd, List.reverse_replicate,
    dropWhile_replicate_of_neg n c hc, List.reverse_replicate,
    dropWhile_replicate_of_neg n c hc]

/-- Counterexample for C8: a 2001-character text without any paragraph
break is returned whole as a single 2001-character segment — longer than
the 2000-character maximum, and not truncated. -/
theorem segment_text_bound_counterexample :
    segmentText (List.replicate 2001 'a') 2000 = [List.replicate 2001 'a'] ∧
    2000 < (List.replicate 2001 'a').length := by
  constructor
  · rw [segmentText_no_break _ 2000 (hasNL2_replicate 2001 'a' (by decide)),
      pyStrip_replicate 2001 'a' (by decide),
      if_neg (fun hc => by
        have h2 := (List.replicate_eq_nil_iff 'a').mp hc
        norm_num at h2)]
  · rw [List.length_replicate]
    norm_num

/-- C8 (amended): segmentation splits only at blank-line paragraph
boundaries and never mid-paragraph: every returned chunk is either at
most the maximum length (2000 characters) or the strip of one whole
paragraph of the text (which may exceed the maximum); and for a text
containing no paragraph break the result is a single segment — the
trimmed text itself, untruncated, unless the text is whitespace-only, in
which case it is the text truncated to the maximum length. -/
theorem segment_text_paragraph_packing :
    (∀ text s : List Char, s ∈ segmentText text 2000 →
      s.length ≤ 2000 ∨ ∃ p ∈ splitParas text, s = pyStrip p) ∧
    (∀ text : List Char, hasNL2 text = false →
      segmentText text 2000 =
        if pyStrip text = [] then [text.take 2000] else [pyStrip text]) := by
  constructor
  · intro text s hs
    rw [segmentText] at hs
    set st := segmentLoop 2000 (splitParas text) [] [] with hst
    have hspec := segmentLoop_spec 2000 (splitParas text) (splitParas text)
      [] [] (fun p hp => hp) (by simp) (Or.inl rfl)
    rw [← hst] at hspec
    have htake : (text.take 2000).length ≤ 2000 := by
      rw [List.length_take]
      exact min_le_left _ _
    have hseg : ∀ u ∈ st.1, u.length ≤ 2000 ∨ ∃ p ∈ splitParas text,
        u = pyStrip p := by
      intro u hu
      rcases hspec.1 u hu with hlt | hex
      · exact Or.inl (le_of_lt hlt)
      · exact Or.inr hex
    split at hs
    · split at hs
      · rw [List.mem_singleton.mp hs]
        exact Or.inl htake
      · exact hseg s hs
    next hne =>
      split at hs
      · rw [List.mem_singleton.mp hs]
        exact Or.inl htake
      · rcases List.mem_append.mp hs with hs2 | hs2
        · exact hseg s hs2
        · rw [List.mem_singleton.mp hs2]
          rcases curOk_emit hspec.2 hne with hlt | hex
          · exact Or.inl (le_of_lt hlt)
          · exact Or.inr hex
  · exact fun text h => segmentText_no_break text 2000 h

/-- Witness for C8 at a concrete input: a short break-free text is
returned as its own single trimmed segment. -/
theorem segment_text_paragraph_packing_witness :
    segmentText "hello world".data 2000 =
      if pyStrip "hello world".data = [] then ["hello world".data.take 2000]
      else [pyStrip "hello world".data] :=
  segment_text_paragraph_packing.2 "hello world".data (by decide)

/-! ## C9: export/import round trip -/

/-- C9: re-importing the exported document (a `json.load` of the
`json.dump` output, which yields the document unchanged) reproduces the
graph's entity, procedure, and triple counts, and a statistics object
identical to the one computed at export — `{total_entities,
total_procedures, total_triples, active_triples, deprecated_triples}`. -/
theorem export_import_round_trip (kg : KnowledgeGraph) :
    fieldCount (load_from_json (exportKnowledgeGraph kg)) "entities" =
      some kg.entities.length ∧
    fieldCount (load_from_json (exportKnowledgeGraph kg)) "procedures" =
      some kg.procedures.length ∧
    fieldCount (load_from_json (exportKnowledgeGraph kg)) "triples" =
      some kg.triples.length ∧
    importedStatistics (load_from_json (exportKnowledgeGraph kg)) =
      some (computeStatistics kg) ∧
    computeStatistics kg =
      { total_entities := kg.entities.length
        total_procedures := kg.procedures.length
        total_triples := kg.triples.length
        active_triples := (kg.triples.filter fun t =>
          decide (t.status = TripleStatus.active)).length
        deprecated_triples := (kg.triples.filter fun t =>
          decide (t.status = TripleStatus.deprecated)).length } := by
  refine ⟨?_, ?_, ?_, ?_, rfl⟩ <;>
    simp [load_from_json, exportKnowledgeGraph, fieldCount, getField,
      importedStatistics, fieldNum, statisticsJson, List.lookup]

end Karma
